import Mathlib

/-!
Shallow embedding of the `selective_time_series` container
(`src/selective_time_series.hpp`, index-permutation variant) and of the
parts of `selective_timeseries.hpp` (pointer variant) needed to compare
the two implementations.

Modelling conventions:
* The template parameters are modelled as ordinary arguments:
  `S` (capacity), `rev` (the `Reverse` template flag).
* `T_value` and `T_score` are instantiated at `Int`, `T_time` at `Nat`
  (legitimate instantiations of the generic parameters: both support
  ordering, `T_time` supports `+ 1`).
* The four parallel `std::array`s become lists of length `S`.  The C++
  constructor leaves `values`/`timestamps`/`scores` uninitialised, so the
  initial state takes their arbitrary initial contents as parameters.
* `std::move` on ranges of trivially copyable elements compiles to
  `memmove`; it is modelled by `memmove` below, which snapshots the
  source range first and clamps out-of-range accesses (the C++ would be
  undefined there; no proved theorem depends on a clamped case).
-/

/-- List read with a default, standing for raw array indexing of `Int` arrays. -/
def getZ (l : List Int) (i : Nat) : Int := l.getD i 0

/-- List read with a default, standing for raw array indexing of `Nat` arrays. -/
def getN (l : List Nat) (i : Nat) : Nat := l.getD i 0

/-- Model of `memmove`-style overlapping range copy: copy `len` elements
starting at `src` to position `dst`, snapshotting the source first. -/
def memmove {α : Type} (l : List α) (src len dst : Nat) : List α :=
  let seg := (l.drop src).take (min len (l.length - dst))
  l.take dst ++ seg ++ l.drop (dst + seg.length)

/-- Auxiliary scan of `std::max_element`: `k` is the absolute index of the
head of the remaining list, `(bi, bv)` the index and value of the current
maximum; the update is strict, so the first maximum is kept. -/
def maxFrom : Nat → Nat → Int → List Int → Nat × Int
  | _, bi, bv, [] => (bi, bv)
  | k, bi, bv, x :: xs => if bv < x then maxFrom (k + 1) k x xs else maxFrom (k + 1) bi bv xs

/-- `selective_time_series::worst_index`: position and value of the first
maximum of the whole `scores` array (`std::max_element` over all `S` slots). -/
def worst_index (scores : List Int) : Nat × Int :=
  match scores with
  | [] => (0, 0)
  | x :: xs => maxFrom 1 0 x xs

/-- `selective_time_series::find_offset_index`: first position holding `x`,
or the length of the array (i.e. `S`) when absent. -/
def find_offset_index : List Nat → Nat → Nat
  | [], _ => 0
  | y :: ys, x => if y = x then 0 else find_offset_index ys x + 1

/-- Linear scan returning the first index `i₀ ≤ i < i₀ + fuel` with `p i`,
or `i₀ + fuel` when none satisfies `p` (the shape of the `for` loops in
`insertion_offset`). -/
def scanFirst (p : Nat → Bool) : Nat → Nat → Nat
  | i, 0 => i
  | i, n + 1 => if p i then i else scanFirst p (i + 1) n

/-- State of a `selective_time_series<Int, S, rev, Nat, Int>` instance.
`ltpo` is the `last_timestamp_plus_one` member. -/
structure STS where
  values : List Int
  timestamps : List Nat
  scores : List Int
  offsets : List Nat
  utilized : Nat
  ltpo : Nat
  dirty : Nat
deriving Repr, DecidableEq

/-- The sample stored in physical slot `k`, as the `(value, timestamp, score)`
tuple the iterator and `worst()` hand out. -/
def slotSample (s : STS) (k : Nat) : Int × Nat × Int :=
  (getZ s.values k, getN s.timestamps k, getZ s.scores k)

/-- `selective_time_series::insertion_offset`. -/
def insertion_offset (rev : Bool) (S : Nat) (s : STS) (t : Nat) : Nat :=
  if rev then
    scanFirst (fun i => decide (getN s.timestamps (getN s.offsets i) < t)) (S - s.utilized)
      s.utilized
  else
    scanFirst (fun i => decide (t < getN s.timestamps (getN s.offsets i))) 0 s.utilized

/-- `selective_time_series::_add`. -/
def _add (rev : Bool) (S : Nat) (s : STS) (v : Int) (t : Nat) (sc : Int) : STS × Bool :=
  let s1 : STS := { s with ltpo := t + 1 }
  if s1.utilized < S then
    ({ s1 with
        values := s1.values.set s1.utilized v
        timestamps := s1.timestamps.set s1.utilized t
        scores := s1.scores.set s1.utilized sc
        utilized := s1.utilized + 1 }, true)
  else
    let wi := (worst_index s1.scores).1
    let ws := (worst_index s1.scores).2
    if sc ≤ ws then
      let s2 : STS := { s1 with
        values := s1.values.set wi v
        timestamps := s1.timestamps.set wi t
        scores := s1.scores.set wi sc }
      let oi := find_offset_index s2.offsets wi
      let offs :=
        if rev then (memmove s2.offsets 0 oi 1).set 0 wi
        else (memmove s2.offsets (oi + 1) (S - (oi + 1)) oi).set (S - 1) wi
      ({ s2 with offsets := offs }, true)
    else (s1, false)

/-- `selective_time_series::insert_one`. -/
def insert_one (rev : Bool) (S : Nat) (s : STS) (v : Int) (t : Nat) (sc : Int) : STS × Bool :=
  let s1 : STS := if s.ltpo < t + 1 then { s with ltpo := t + 1 } else s
  if s1.utilized < S then
    let s2 : STS := { s1 with
      values := s1.values.set s1.utilized v
      timestamps := s1.timestamps.set s1.utilized t
      scores := s1.scores.set s1.utilized sc }
    let io := insertion_offset rev S s2 t
    let offs :=
      if rev then memmove s2.offsets (S - s2.utilized) io (S - s2.utilized - 1)
      else memmove s2.offsets io (s2.utilized - io) (io + 1)
    ({ s2 with offsets := offs, utilized := s2.utilized + 1 }, true)
  else
    let wi := (worst_index s1.scores).1
    let ws := (worst_index s1.scores).2
    if ws < sc then (s1, false)
    else
      let s2 : STS := { s1 with
        values := s1.values.set wi v
        timestamps := s1.timestamps.set wi t
        scores := s1.scores.set wi sc }
      let wo := find_offset_index s2.offsets wi
      let io := insertion_offset rev S s2 t
      let offs :=
        if io < wo then (memmove s2.offsets io (wo - io) (io + 1)).set io wi
        else if wo < io then (memmove s2.offsets (wo + 1) (io - (wo + 1)) wo).set (io - 1) wi
        else s2.offsets
      ({ s2 with offsets := offs }, true)

/-- Modulus of the source's `index_t`: `uint8_t` for `S < 256`, `uint16_t`
for `S < 65536`, `uint32_t` for `S < 4294967296`, else `uint64_t`.  The
`dirty` member has this type, so `dirty +=` wraps at this modulus.
(`utilized` has the same type but can never wrap: it is only incremented
under `utilized < S`, and `S` is below the modulus by construction.) -/
def idxMod (S : Nat) : Nat :=
  if S < 256 then 256
  else if S < 65536 then 65536
  else if S < 4294967296 then 4294967296
  else 18446744073709551616

/-- `add(val)`: one-argument overload, timestamp defaulted from
`last_timestamp_plus_one++`, score defaulted to 0, the `index_t` dirty
counter bumped (with wrap-around) when the sample was retained; returns
the dirty count. -/
def add1 (rev : Bool) (S : Nat) (s : STS) (v : Int) : STS × Nat :=
  let r := _add rev S s v s.ltpo 0
  let d := (s.dirty + (if r.2 then 1 else 0)) % idxMod S
  ({ r.1 with dirty := d }, d)

/-- `add(val, timestamp)`: score defaulted to 0, the `index_t` dirty
counter bumped (with wrap-around) when retained; returns the dirty count. -/
def add2 (rev : Bool) (S : Nat) (s : STS) (v : Int) (t : Nat) : STS × Nat :=
  let r := _add rev S s v t 0
  let d := (s.dirty + (if r.2 then 1 else 0)) % idxMod S
  ({ r.1 with dirty := d }, d)

/-- `add(val, timestamp, score)`: dirty counter untouched; returns the
dirty count. -/
def add3 (rev : Bool) (S : Nat) (s : STS) (v : Int) (t : Nat) (sc : Int) : STS × Nat :=
  let r := _add rev S s v t sc
  (r.1, s.dirty)

/-- The logical index range traversed by `begin()`/`end()`. -/
def iterRange (rev : Bool) (S : Nat) (s : STS) : List Nat :=
  if rev then List.range' (S - s.utilized) s.utilized else List.range' 0 s.utilized

/-- The sequence of samples produced by iterating the container. -/
def iterList (rev : Bool) (S : Nat) (s : STS) : List (Int × Nat × Int) :=
  (iterRange rev S s).map (fun i => slotSample s (getN s.offsets i))

/-- The samples currently retained in storage (physical slots `0 ≤ k < utilized`;
both `_add` and `insert_one` fill physical slots in this order). -/
def retainedList (s : STS) : List (Int × Nat × Int) :=
  (List.range s.utilized).map (slotSample s)

/-- `selective_time_series::worst`. -/
def worstTuple (s : STS) : Int × Nat × Int :=
  slotSample s (worst_index s.scores).1

/-- The `std::find(b, e, x) != e` test used by `has`. -/
def findB {α : Type} [DecidableEq α] : List α → α → Bool
  | [], _ => false
  | y :: ys, x => if y = x then true else findB ys x

/-- `selective_time_series::has`: three independent component membership
tests over the full `timestamps`, `scores` and `values` arrays. -/
def hasTriple (s : STS) (e : Int × Nat × Int) : Bool :=
  findB s.timestamps e.2.1 && findB s.scores e.2.2 && findB s.values e.1

/-- One iteration of the `merge` loop body. -/
def mergeStep (rev : Bool) (S : Nat) (s : STS) (e : Int × Nat × Int) : STS :=
  if hasTriple s e then s else (insert_one rev S s e.1 e.2.1 e.2.2).1

/-- `selective_time_series::merge`, folded over the samples of the other
container in its iteration order. -/
def merge (rev : Bool) (S : Nat) (s : STS) (es : List (Int × Nat × Int)) : STS :=
  es.foldl (mergeStep rev S) s

/-- Swap two positions of a list (the `res[j].swap(res[j-1])` of `best`). -/
def swapIdx (l : List (Int × Nat × Int)) (i j : Nat) : List (Int × Nat × Int) :=
  (l.set i (l.getD j (0, 0, 0))).set j (l.getD i (0, 0, 0))

/-- Inner swap loop of the final insertion sort of `best`: called with the
current `j` of the C++ loop; compares `res[j-1]` and `res[j]`. -/
def bestSortInner (rev : Bool) : List (Int × Nat × Int) → Nat → List (Int × Nat × Int)
  | l, 0 => l
  | l, j + 1 =>
    let a := l.getD j (0, 0, 0)
    let b := l.getD (j + 1) (0, 0, 0)
    if (if rev then a.2.1 < b.2.1 else b.2.1 < a.2.1) then
      bestSortInner rev (swapIdx l j (j + 1)) j
    else l

/-- The final time-order insertion sort of `best`. -/
def bestSort (rev : Bool) (l : List (Int × Nat × Int)) : List (Int × Nat × Int) :=
  (List.range l.length).foldl (bestSortInner rev) l

/-- One iteration of the main scan of `best`: state is
`(wi, ws, res)`; note the recompute loop reuses the stale `ws` as its
starting bound, exactly as the source does. -/
def bestLoop (s : STS) (st : Nat × Int × List (Int × Nat × Int)) (i : Nat) :
    Nat × Int × List (Int × Nat × Int) :=
  let wi := st.1
  let ws := st.2.1
  let res := st.2.2
  if getZ s.scores i < ws then
    let res2 := res.set wi (slotSample s i)
    let r := maxFrom 0 wi ws (res2.map (fun e => e.2.2))
    (r.1, r.2, res2)
  else (wi, ws, res)

/-- `selective_time_series::best<N>`: seed from the first `N` physical slots
(the template recursion), find the worst of the seed, scan the remaining
occupied slots, then insertion-sort by timestamp. -/
def best (rev : Bool) (s : STS) (N : Nat) : List (Int × Nat × Int) :=
  let res := (List.range N).map (slotSample s)
  let w0 := worst_index (res.map (fun e => e.2.2))
  let r := (List.range' N (s.utilized - N)).foldl (bestLoop s) (w0.1, w0.2, res)
  bestSort rev r.2.2

/-- Operations of the public mutation interface exercised by the claims. -/
inductive Op where
  | a1 (v : Int)
  | a2 (v : Int) (t : Nat)
  | a3 (v : Int) (t : Nat) (sc : Int)
  | ins (v : Int) (t : Nat) (sc : Int)
deriving Repr, DecidableEq

/-- One public call applied to a state. -/
def step (rev : Bool) (S : Nat) (s : STS) : Op → STS
  | .a1 v => (add1 rev S s v).1
  | .a2 v t => (add2 rev S s v t).1
  | .a3 v t sc => (add3 rev S s v t sc).1
  | .ins v t sc => (insert_one rev S s v t sc).1

/-- A sequence of public calls applied to a state. -/
def run (rev : Bool) (S : Nat) (s : STS) (ops : List Op) : STS :=
  ops.foldl (step rev S) s

/-- The state produced by the constructor.  The constructor only writes
`offsets`; `gv`, `gt`, `gs` are the indeterminate initial contents of the
`values`, `timestamps` and `scores` arrays, which C++ leaves uninitialised. -/
def init (rev : Bool) (S : Nat) (gv : List Int) (gt : List Nat) (gs : List Int) : STS :=
  { values := gv, timestamps := gt, scores := gs
    offsets := if rev then (List.range S).reverse else List.range S
    utilized := 0, ltpo := 0, dirty := 0 }

/-- A sequence of `insert_one` calls (used to state the time-bookkeeping
properties of `insert`). -/
def runIns (rev : Bool) (S : Nat) (s : STS) (es : List (Int × Nat × Int)) : STS :=
  es.foldl (fun st e => (insert_one rev S st e.1 e.2.1 e.2.2).1) s

/-- State of a `selective_timeseries<Int, S, rev, Nat, Int>` instance (the
pointer variant).  Element structs are value-initialised (`elements {}`);
the pointer array is null-initialised (`index {0}`); pointers become
`Option Nat` slot numbers. -/
structure PTS where
  evals : List Int
  etimes : List Nat
  escores : List Int
  idx : List (Option Nat)
  utilized : Nat
  ltpo : Nat
  dirty : Nat
deriving Repr, DecidableEq

/-- The state a default-constructed `selective_timeseries` starts in. -/
def init2 (S : Nat) : PTS :=
  { evals := List.replicate S 0, etimes := List.replicate S 0, escores := List.replicate S 0
    idx := List.replicate S none, utilized := 0, ltpo := 0, dirty := 0 }

/-- `index[i]->score`; dereferencing a null pointer is undefined in the
source and modelled as 0 (no proved theorem depends on that case). -/
def derefScore (p : PTS) (o : Option Nat) : Int :=
  match o with
  | some k => getZ p.escores k
  | none => 0

/-- The running-maximum scan inside `selective_timeseries::worst_index`:
`w` starts at 0 and is updated on strictly greater scores. -/
def wiScan (p : PTS) : Nat → Nat → Nat → Int → Nat
  | _, 0, wi, _ => wi
  | i, fuel + 1, wi, w =>
    let sc := derefScore p (p.idx.getD i none)
    if w < sc then wiScan p (i + 1) fuel i sc else wiScan p (i + 1) fuel wi w

/-- `selective_timeseries::worst_index`. -/
def worst_index2 (rev : Bool) (S : Nat) (p : PTS) : Nat :=
  if p.utilized < S then
    if rev then wiScan p (S - p.utilized) p.utilized 0 0
    else wiScan p 0 p.utilized 0 0
  else wiScan p 0 S 0 0

/-- `selective_timeseries::_add`; note the strict `<` in the full-capacity
replacement test where the index variant uses `≤`. -/
def _add2 (rev : Bool) (S : Nat) (p : PTS) (v : Int) (t : Nat) (sc : Int) : PTS × Bool :=
  let p1 : PTS := { p with ltpo := t + 1 }
  if p1.utilized < S then
    let p2 : PTS := { p1 with
      evals := p1.evals.set p1.utilized v
      etimes := p1.etimes.set p1.utilized t
      escores := p1.escores.set p1.utilized sc
      idx := p1.idx.set (if rev then S - p1.utilized - 1 else p1.utilized) (some p1.utilized) }
    ({ p2 with utilized := p2.utilized + 1 }, true)
  else
    let w := worst_index2 rev S p1
    if sc < derefScore p1 (p1.idx.getD w none) then
      let k := (p1.idx.getD w none).getD 0
      let p2 : PTS := { p1 with
        evals := p1.evals.set k v
        etimes := p1.etimes.set k t
        escores := p1.escores.set k sc }
      let temp := p2.idx.getD w none
      let idx2 :=
        if rev then (memmove p2.idx 0 w 1).set 0 temp
        else (memmove p2.idx (w + 1) (S - (w + 1)) w).set (S - 1) temp
      ({ p2 with idx := idx2 }, true)
    else (p1, false)

/-! ## Helper lemmas -/

lemma _add_utilized (rev : Bool) (S : Nat) (s : STS) (v : Int) (t : Nat) (sc : Int) :
    ((_add rev S s v t sc).1.utilized = s.utilized + 1 ∧ s.utilized < S) ∨
    ((_add rev S s v t sc).1.utilized = s.utilized ∧ ¬ s.utilized < S) := by
  unfold _add
  by_cases h : s.utilized < S
  · left; simp [h]
  · right
    by_cases h2 : sc ≤ (worst_index s.scores).2 <;> simp [h, h2]

lemma insert_one_utilized (rev : Bool) (S : Nat) (s : STS) (v : Int) (t : Nat) (sc : Int) :
    ((insert_one rev S s v t sc).1.utilized = s.utilized + 1 ∧ s.utilized < S) ∨
    ((insert_one rev S s v t sc).1.utilized = s.utilized ∧ ¬ s.utilized < S) := by
  unfold insert_one
  by_cases hl : s.ltpo < t + 1 <;>
  by_cases h : s.utilized < S
  · left; simp [hl, h]
  · right
    by_cases h2 : (worst_index s.scores).2 < sc <;> simp [hl, h, h2]
  · left; simp [hl, h]
  · right
    by_cases h2 : (worst_index s.scores).2 < sc <;> simp [hl, h, h2]

lemma step_utilized (rev : Bool) (S : Nat) (s : STS) (op : Op) :
    ((step rev S s op).utilized = s.utilized + 1 ∧ s.utilized < S) ∨
    ((step rev S s op).utilized = s.utilized ∧ ¬ s.utilized < S) := by
  cases op with
  | a1 v => simpa [step, add1] using _add_utilized rev S s v s.ltpo 0
  | a2 v t => simpa [step, add2] using _add_utilized rev S s v t 0
  | a3 v t sc => simpa [step, add3] using _add_utilized rev S s v t sc
  | ins v t sc => simpa [step] using insert_one_utilized rev S s v t sc

lemma step_utilized_le (rev : Bool) (S : Nat) (s : STS) (op : Op) (h : s.utilized ≤ S) :
    (step rev S s op).utilized ≤ S := by
  rcases step_utilized rev S s op with ⟨he, hlt⟩ | ⟨he, _⟩ <;> omega

lemma run_utilized_le (rev : Bool) (S : Nat) (ops : List Op) :
    ∀ s : STS, s.utilized ≤ S → (run rev S s ops).utilized ≤ S := by
  induction ops with
  | nil => intro s h; exact h
  | cons op rest ih =>
    intro s h
    exact ih (step rev S s op) (step_utilized_le rev S s op h)

/-- Claim C2: for every sequence of `add`/`insert` calls, after every call
(i.e. after every prefix of the call sequence) the number of retained
samples is at most the fixed capacity, and no `add` or `insert` call ever
decreases the size. -/
theorem c2_capacity_invariant :
    (∀ (rev : Bool) (S : Nat) (gv : List Int) (gt : List Nat) (gs : List Int)
       (ops : List Op) (n : Nat),
       (run rev S (init rev S gv gt gs) (ops.take n)).utilized ≤ S) ∧
    (∀ (rev : Bool) (S : Nat) (s : STS) (op : Op),
       s.utilized ≤ (step rev S s op).utilized) := by
  constructor
  · intro rev S gv gt gs ops n
    exact run_utilized_le rev S (ops.take n) (init rev S gv gt gs) (by simp [init])
  · intro rev S s op
    rcases step_utilized rev S s op with ⟨he, _⟩ | ⟨he, _⟩ <;> omega

/-- Claim C9: whenever the container is not full, `insert` retains the
sample unconditionally — it returns `true` and grows the size by exactly
one, whatever the score — so rejection can only happen at full capacity. -/
theorem c9_insert_nonfull_retains (rev : Bool) (S : Nat) (s : STS) (v : Int) (t : Nat)
    (sc : Int) (h : s.utilized < S) :
    (insert_one rev S s v t sc).2 = true ∧
    (insert_one rev S s v t sc).1.utilized = s.utilized + 1 := by
  unfold insert_one
  by_cases hl : s.ltpo < t + 1 <;> simp [hl, h]

/-- Witness for C9 at a concrete input: a capacity-2 container holding one
sample retains an arbitrarily badly scored insert. -/
theorem c9_witness :
    ((run false 2 (init false 2 [0, 0] [0, 0] [0, 0]) [Op.a3 1 0 0]).utilized < 2) ∧
    (insert_one false 2 (run false 2 (init false 2 [0, 0] [0, 0] [0, 0]) [Op.a3 1 0 0])
        7 9 1000).2 = true ∧
    (insert_one false 2 (run false 2 (init false 2 [0, 0] [0, 0] [0, 0]) [Op.a3 1 0 0])
        7 9 1000).1.utilized =
      (run false 2 (init false 2 [0, 0] [0, 0] [0, 0]) [Op.a3 1 0 0]).utilized + 1 :=
  ⟨by decide,
   c9_insert_nonfull_retains false 2
     (run false 2 (init false 2 [0, 0] [0, 0] [0, 0]) [Op.a3 1 0 0]) 7 9 1000 (by decide)⟩

/-! ## Concrete states used by the code-bug and counterexample theorems -/

/-- Capacity-3 forward container after `add(10, 5, 1)` followed by
`insert(20, 3, 2)` (initial array contents all zero). -/
def c3state : STS :=
  run false 3 (init false 3 (List.replicate 3 0) (List.replicate 3 0) (List.replicate 3 0))
    [Op.a3 10 5 1, Op.ins 20 3 2]

/-- Claim C3 (code bug evaluation): after an `insert` into a non-full
container, iterating no longer yields the retained samples — the sample
`(20, 3, 2)` is retained in storage but absent from the iteration, while
`(10, 5, 1)` is yielded twice, because the non-full branch of `insert_one`
shifts the order array without ever writing the new slot into it. -/
theorem c3_iteration_misses_retained_sample :
    iterList false 3 c3state = [(10, 5, 1), (10, 5, 1)] ∧
    retainedList c3state = [(10, 5, 1), (20, 3, 2)] ∧
    (20, 3, 2) ∉ iterList false 3 c3state := by decide

/-- Capacity-5 forward container retaining timestamps {0, 1, 5, 7}, then
`insert(200, timestamp 3, score 2)` — the concrete scenario of the spec. -/
def c6state : STS :=
  run false 5 (init false 5 (List.replicate 5 0) (List.replicate 5 0) (List.replicate 5 0))
    [Op.a3 100 0 0, Op.a3 101 1 0, Op.a3 102 5 0, Op.a3 103 7 0, Op.ins 200 3 2]

/-- Claim C6 (code bug evaluation): inserting timestamp 3 among retained
timestamps {0, 1, 5, 7} (forward) does not place it between 1 and 5; the
iteration afterwards is 0, 1, 5, 5, 7 — timestamp 3 never appears, because
the non-full branch of `insert_one` never links the new slot into the
order array. -/
theorem c6_insert_sample_not_in_iteration :
    (iterList false 5 c6state).map (fun e => e.2.1) = [0, 1, 5, 5, 7] ∧
    (200, 3, 2) ∈ retainedList c6state ∧
    (200, 3, 2) ∉ iterList false 5 c6state := by decide

/-- Capacity-4 forward container filled with scores 5, 5, 1, 2 at
timestamps 0, 1, 2, 3. -/
def c4state : STS :=
  run false 4 (init false 4 (List.replicate 4 0) (List.replicate 4 0) (List.replicate 4 0))
    [Op.a3 100 0 5, Op.a3 101 1 5, Op.a3 102 2 1, Op.a3 103 3 2]

/-- Claim C4 (code bug evaluation): `best<2>` on retained scores
{5, 5, 1, 2} returns the samples scored 5 and 2 while the sample scored 1
stays excluded — the scan never refreshes its worst-of-the-N bound, so
every improvement overwrites the same seed slot.  The returned score 5 is
strictly worse than the excluded score 1, violating the claimed
best-(N)-selection property. -/
theorem c4_best_returns_nonminimal_scores :
    best false c4state 2 = [(101, 1, 5), (103, 3, 2)] ∧
    (102, 2, 1) ∈ retainedList c4state ∧
    (102, 2, 1) ∉ best false c4state 2 ∧
    (102, 2, 1).2.2 < (101, 1, 5).2.2 := by decide

/-- Full capacity-2 pointer-variant container holding two samples of
score 4, built by two `add` calls. -/
def c1pstate : PTS := (_add2 false 2 (_add2 false 2 (init2 2) 10 0 4).1 20 1 4).1

/-- Claim C1 counterexample: in the pointer implementation
(`selective_timeseries::_add`), a full-container add whose score 4 equals
the current worst score 4 retains nothing and leaves every retained sample
unchanged — the claim says a new score less than *or equal to* the worst
must displace the worst slot. -/
theorem c1_counterexample :
    c1pstate.utilized = 2 ∧
    derefScore c1pstate (c1pstate.idx.getD (worst_index2 false 2 c1pstate) none) = 4 ∧
    (4 : Int) ≤ 4 ∧
    (_add2 false 2 c1pstate 30 2 4).2 = false ∧
    (_add2 false 2 c1pstate 30 2 4).1.evals = c1pstate.evals ∧
    (_add2 false 2 c1pstate 30 2 4).1.etimes = c1pstate.etimes ∧
    (_add2 false 2 c1pstate 30 2 4).1.escores = c1pstate.escores ∧
    (_add2 false 2 c1pstate 30 2 4).1.utilized = c1pstate.utilized := by decide

/-- Capacity-1 forward container after `add(1, 5, 3)` and a rejected
`insert(2, 20, 9)`: `next_timestamp` is 21. -/
def c5state2 : STS := run false 1 (init false 1 [0] [0] [0]) [Op.a3 1 5 3, Op.ins 2 20 9]

/-- Claim C5 counterexample: the rejected `insert` with timestamp 20 drove
`next_timestamp` to 21, but a subsequent `add` with timestamp 5 (which
respects `add`'s own precondition — 5 is not older than the only retained
timestamp 5) unconditionally resets it to 6: the counter decreases, and
6 is not strictly greater than the previously passed timestamp 20. -/
theorem c5_counterexample :
    c5state2.ltpo = 21 ∧
    (retainedList c5state2).map (fun e => e.2.1) = [5] ∧
    (step false 1 c5state2 (Op.a3 3 5 0)).ltpo = 6 ∧
    ¬ c5state2.ltpo ≤ (step false 1 c5state2 (Op.a3 3 5 0)).ltpo ∧
    ¬ 20 < (step false 1 c5state2 (Op.a3 3 5 0)).ltpo := by decide

/-- Capacity-3 forward container retaining `(1, 0, 5)` and `(2, 1, 7)`. -/
def c7self : STS :=
  run false 3 (init false 3 (List.replicate 3 0) (List.replicate 3 0) (List.replicate 3 0))
    [Op.a3 1 0 5, Op.a3 2 1 7]

/-- Capacity-1 container retaining the single sample `(1, 1, 5)`. -/
def c7other : STS := run false 1 (init false 1 [0] [0] [0]) [Op.a3 1 1 5]

/-- Claim C7 counterexample: no retained sample of `c7self` equals the
triple `(1, 1, 5)`, yet `merge` skips it — `has` matches the value 1, the
timestamp 1, and the score 5 against three different slots — so the merge
leaves the container unchanged where the claim requires an insert. -/
theorem c7_counterexample :
    iterList false 1 c7other = [(1, 1, 5)] ∧
    retainedList c7self = [(1, 0, 5), (2, 1, 7)] ∧
    (1, 1, 5) ∉ retainedList c7self ∧
    merge false 3 c7self (iterList false 1 c7other) = c7self := by decide

/-- Capacity-2 forward container whose uninitialised score array happened
to contain 7 in the unoccupied slot, after a single `add(1, 0, 5)`. -/
def c8state : STS := step false 2 (init false 2 [0, 0] [0, 0] [0, 7]) (Op.a3 1 0 5)

/-- Claim C8 counterexample: on this non-empty (but non-full) container,
`worst()` scans all capacity slots including the unoccupied one and
returns the unoccupied slot's contents `(0, 0, 7)` — not a retained
sample, and its score 7 differs from the maximum retained score 5. -/
theorem c8_counterexample :
    c8state.utilized = 1 ∧
    retainedList c8state = [(1, 0, 5)] ∧
    worstTuple c8state = (0, 0, 7) ∧
    worstTuple c8state ∉ retainedList c8state ∧
    (worstTuple c8state).2.2 ≠ 5 := by decide

/-! ## Specification of the `std::max_element` scan -/

lemma maxFrom_spec (l : List Int) : ∀ (k bi : Nat) (bv : Int),
    ((maxFrom k bi bv l).1 = bi ∧ (maxFrom k bi bv l).2 = bv ∧
       ∀ j, j < l.length → l.getD j 0 ≤ bv) ∨
    (∃ j, j < l.length ∧ (maxFrom k bi bv l).1 = k + j ∧
       (maxFrom k bi bv l).2 = l.getD j 0 ∧ bv < l.getD j 0 ∧
       (∀ j2, j2 < l.length → l.getD j2 0 ≤ l.getD j 0) ∧
       (∀ j2, j2 < j → l.getD j2 0 < l.getD j 0)) := by
  induction l with
  | nil =>
    intro k bi bv
    left
    exact ⟨rfl, rfl, by intro j hj; simp at hj⟩
  | cons x xs ih =>
    intro k bi bv
    by_cases hx : bv < x
    · have hm : maxFrom k bi bv (x :: xs) = maxFrom (k + 1) k x xs := by
        simp [maxFrom, hx]
      rcases ih (k + 1) k x with ⟨h1, h2, h3⟩ | ⟨j, hj, e1, e2, hlt, hmax, hfirst⟩
      · right
        refine ⟨0, by simp, ?_, ?_, by simpa using hx, ?_, ?_⟩
        · rw [hm, h1]; omega
        · rw [hm, h2]; simp
        · intro j2 hj2
          cases j2 with
          | zero => simp
          | succ m =>
            simp only [List.getD_cons_succ, List.getD_cons_zero]
            exact h3 m (by simpa using hj2)
        · intro j2 hj2; omega
      · right
        refine ⟨j + 1, by simpa using hj, ?_, ?_, ?_, ?_, ?_⟩
        · rw [hm, e1]; omega
        · rw [hm, e2]; simp
        · simp only [List.getD_cons_succ]; exact lt_trans hx hlt
        · intro j2 hj2
          cases j2 with
          | zero =>
            simp only [List.getD_cons_zero, List.getD_cons_succ]
            exact le_of_lt hlt
          | succ m =>
            simp only [List.getD_cons_succ]
            exact hmax m (by simpa using hj2)
        · intro j2 hj2
          cases j2 with
          | zero =>
            simp only [List.getD_cons_zero, List.getD_cons_succ]
            exact hlt
          | succ m =>
            simp only [List.getD_cons_succ]
            exact hfirst m (by omega)
    · have hm : maxFrom k bi bv (x :: xs) = maxFrom (k + 1) bi bv xs := by
        simp [maxFrom, hx]
      have hxle : x ≤ bv := not_lt.1 hx
      rcases ih (k + 1) bi bv with ⟨h1, h2, h3⟩ | ⟨j, hj, e1, e2, hlt, hmax, hfirst⟩
      · left
        refine ⟨by rw [hm, h1], by rw [hm, h2], ?_⟩
        intro j hj
        cases j with
        | zero => simpa using hxle
        | succ m =>
          simp only [List.getD_cons_succ]
          exact h3 m (by simpa using hj)
      · right
        refine ⟨j + 1, by simpa using hj, ?_, ?_, ?_, ?_, ?_⟩
        · rw [hm, e1]; omega
        · rw [hm, e2]; simp
        · simpa using hlt
        · intro j2 hj2
          cases j2 with
          | zero =>
            simp only [List.getD_cons_zero, List.getD_cons_succ]
            exact le_of_lt (lt_of_le_of_lt hxle hlt)
          | succ m =>
            simp only [List.getD_cons_succ]
            exact hmax m (by simpa using hj2)
        · intro j2 hj2
          cases j2 with
          | zero =>
            simp only [List.getD_cons_zero, List.getD_cons_succ]
            exact lt_of_le_of_lt hxle hlt
          | succ m =>
            simp only [List.getD_cons_succ]
            exact hfirst m (by omega)

lemma worst_index_spec (l : List Int) (hl : 0 < l.length) :
    (worst_index l).1 < l.length ∧
    l.getD (worst_index l).1 0 = (worst_index l).2 ∧
    (∀ j, j < l.length → l.getD j 0 ≤ (worst_index l).2) ∧
    (∀ j, j < (worst_index l).1 → l.getD j 0 < (worst_index l).2) := by
  cases l with
  | nil => simp at hl
  | cons x xs =>
    have hw : worst_index (x :: xs) = maxFrom 1 0 x xs := rfl
    rcases maxFrom_spec xs 1 0 x with ⟨h1, h2, h3⟩ | ⟨j, hj, e1, e2, hlt, hmax, hfirst⟩
    · refine ⟨by rw [hw, h1]; simp, by rw [hw, h1, h2]; simp, ?_, ?_⟩
      · intro j hj
        rw [hw, h2]
        cases j with
        | zero => simp
        | succ m =>
          simp only [List.getD_cons_succ]
          exact h3 m (by simpa using hj)
      · intro j hj
        rw [hw, h1] at hj
        omega
    · refine ⟨by rw [hw, e1]; simp only [List.length_cons]; omega, ?_, ?_, ?_⟩
      · rw [hw, e1, e2, Nat.add_comm 1 j]
        simp [List.getD_cons_succ]
      · intro j2 hj2
        rw [hw, e2]
        cases j2 with
        | zero =>
          simp only [List.getD_cons_zero]
          exact le_of_lt hlt
        | succ m =>
          simp only [List.getD_cons_succ]
          exact hmax m (by simpa using hj2)
      · intro j2 hj2
        rw [hw, e1] at hj2
        rw [hw, e2]
        cases j2 with
        | zero =>
          simp only [List.getD_cons_zero]
          exact hlt
        | succ m =>
          simp only [List.getD_cons_succ]
          exact hfirst m (by omega)

/-! ## Claim C10 -/

lemma _add_score_zero_retained (rev : Bool) (S : Nat) (s : STS) (v : Int) (t : Nat)
    (hsl : s.scores.length = S) (hsc : ∀ i, i < s.utilized → 0 ≤ getZ s.scores i) :
    (_add rev S s v t 0).2 = true := by
  by_cases h : s.utilized < S
  · unfold _add; simp [h]
  · have hws : (0 : Int) ≤ (worst_index s.scores).2 := by
      rcases Nat.eq_zero_or_pos S with hS | hS
      · have : s.scores = [] := List.length_eq_zero.1 (by rw [hsl, hS])
        rw [this]
        norm_num [worst_index]
      · have hlen : 0 < s.scores.length := by rw [hsl]; exact hS
        obtain ⟨hwi, hget, _hmax, _⟩ := worst_index_spec s.scores hlen
        have hwiu : (worst_index s.scores).1 < s.utilized := by
          rw [hsl] at hwi; omega
        calc (0 : Int) ≤ getZ s.scores (worst_index s.scores).1 := hsc _ hwiu
          _ = (worst_index s.scores).2 := hget
    unfold _add
    simp [h, hws]

/-- Capacity-1 forward container after 255 unscored `add(5, 3)` calls:
every one of them is retained (score 0 never beats score 0 strictly), so
the `uint8_t` dirty counter has reached 255. -/
def c10state : STS :=
  run false 1 (init false 1 [0] [0] [0]) (List.replicate 255 (Op.a2 5 3))

set_option maxRecDepth 100000 in
/-- Claim C10 counterexample: at the reachable state with `dirty = 255`
(whose single retained score 0 satisfies the claim's own non-negativity
premise), the 256th unscored `add` is retained but the `index_t`
(`uint8_t` for capacity below 256) dirty counter wraps to 0 and the call
returns 0, not `dirty + 1 = 256` as the claim states. -/
theorem c10_counterexample :
    c10state.dirty = 255 ∧
    c10state.scores = [0] ∧
    (add2 false 1 c10state 5 3).2 = 0 ∧
    (add2 false 1 c10state 5 3).1.dirty = 0 ∧
    (add2 false 1 c10state 5 3).2 ≠ c10state.dirty + 1 := by decide

/-- Claim C10 as amended: in the index-permutation implementation,
provided all retained scores are non-negative, an `add` without an
explicit score (default score 0) is always retained — even at full
capacity, since 0 can never be strictly worse than the current worst — and
both unscored `add` overloads increment `dirty` by exactly 1 *modulo the
`index_t` width* (2^8 for capacity below 256, and so on) and return that
wrapped count; the result equals exactly `dirty + 1` whenever `dirty + 1`
is below the width, but at `dirty = width - 1` the counter wraps to 0 (see
the counterexample). -/
theorem c10_unscored_add_always_retained (rev : Bool) (S : Nat) (s : STS) (v : Int) (t : Nat)
    (hsl : s.scores.length = S) (hsc : ∀ i, i < s.utilized → 0 ≤ getZ s.scores i) :
    (_add rev S s v t 0).2 = true ∧
    (add2 rev S s v t).2 = (s.dirty + 1) % idxMod S ∧
    (add2 rev S s v t).1.dirty = (s.dirty + 1) % idxMod S ∧
    (add1 rev S s v).2 = (s.dirty + 1) % idxMod S ∧
    (add1 rev S s v).1.dirty = (s.dirty + 1) % idxMod S ∧
    (s.dirty + 1 < idxMod S → (add2 rev S s v t).2 = s.dirty + 1) := by
  have h2 := _add_score_zero_retained rev S s v t hsl hsc
  have h1 := _add_score_zero_retained rev S s v s.ltpo hsl hsc
  refine ⟨h2, ?_, ?_, ?_, ?_, ?_⟩
  · simp [add2, h2]
  · simp [add2, h2]
  · simp [add1, h1]
  · simp [add1, h1]
  · intro h
    simp [add2, h2, Nat.mod_eq_of_lt h]

/-- Witness for C10 at a concrete input: a full capacity-1 container with
the single (non-negative) retained score 2 and dirty count 0 retains a
fresh unscored add and reports dirty count 1 (no wrap at this input). -/
theorem c10_witness :
    (run false 1 (init false 1 [0] [0] [0]) [Op.a3 5 0 2]).scores.length = 1 ∧
    (add2 false 1 (run false 1 (init false 1 [0] [0] [0]) [Op.a3 5 0 2]) 6 1).2 =
      (run false 1 (init false 1 [0] [0] [0]) [Op.a3 5 0 2]).dirty + 1 :=
  ⟨by decide,
   (c10_unscored_add_always_retained false 1
      (run false 1 (init false 1 [0] [0] [0]) [Op.a3 5 0 2]) 6 1 (by decide)
      (by decide)).2.2.2.2.2 (by decide)⟩

/-! ## Claim C5 -/

lemma _add_ltpo (rev : Bool) (S : Nat) (s : STS) (v : Int) (t : Nat) (sc : Int) :
    (_add rev S s v t sc).1.ltpo = t + 1 := by
  unfold _add
  by_cases h : s.utilized < S
  · simp [h]
  · by_cases h2 : sc ≤ (worst_index s.scores).2 <;> simp [h, h2]

lemma insert_one_ltpo (rev : Bool) (S : Nat) (s : STS) (v : Int) (t : Nat) (sc : Int) :
    (insert_one rev S s v t sc).1.ltpo = max s.ltpo (t + 1) := by
  unfold insert_one
  by_cases hl : s.ltpo < t + 1 <;>
  by_cases h : s.utilized < S
  · simp [hl, h]; omega
  · by_cases h2 : (worst_index s.scores).2 < sc <;> simp [hl, h, h2] <;> omega
  · simp [hl, h]; omega
  · by_cases h2 : (worst_index s.scores).2 < sc <;> simp [hl, h, h2] <;> omega

lemma runIns_ltpo_mono (rev : Bool) (S : Nat) (es : List (Int × Nat × Int)) :
    ∀ s : STS, s.ltpo ≤ (runIns rev S s es).ltpo := by
  induction es with
  | nil => intro s; exact le_refl _
  | cons e rest ih =>
    intro s
    have h1 : s.ltpo ≤ (insert_one rev S s e.1 e.2.1 e.2.2).1.ltpo := by
      rw [insert_one_ltpo]; omega
    exact le_trans h1 (ih _)

lemma runIns_ltpo_gt (rev : Bool) (S : Nat) (es : List (Int × Nat × Int)) :
    ∀ s : STS, ∀ e ∈ es, e.2.1 < (runIns rev S s es).ltpo := by
  induction es with
  | nil => intro s e he; simp at he
  | cons e0 rest ih =>
    intro s e he
    rcases List.mem_cons.1 he with rfl | hmem
    · have h1 : e.2.1 < (insert_one rev S s e.1 e.2.1 e.2.2).1.ltpo := by
        rw [insert_one_ltpo]; omega
      calc e.2.1 < (insert_one rev S s e.1 e.2.1 e.2.2).1.ltpo := h1
        _ ≤ (runIns rev S ((insert_one rev S s e.1 e.2.1 e.2.2).1) rest).ltpo :=
          runIns_ltpo_mono rev S rest _
        _ = (runIns rev S s (e :: rest)).ltpo := rfl
    · exact ih _ e hmem

/-- Claim C5 as amended: `insert` never decreases `next_timestamp`
(`last_timestamp_plus_one`), leaves it strictly greater than its own
timestamp, and across any sequence of `insert` calls it stays strictly
greater than every timestamp passed; every `add` overload, by contrast,
unconditionally resets the counter to exactly its timestamp + 1 — strictly
greater than that call's own timestamp but possibly smaller than
timestamps passed earlier, so global monotonicity fails (see the
counterexample). -/
theorem c5_nexttimestamp_bookkeeping (rev : Bool) (S : Nat) (s : STS) (v : Int) (t : Nat)
    (sc : Int) (es : List (Int × Nat × Int)) :
    (_add rev S s v t sc).1.ltpo = t + 1 ∧
    (add3 rev S s v t sc).1.ltpo = t + 1 ∧
    (add2 rev S s v t).1.ltpo = t + 1 ∧
    (insert_one rev S s v t sc).1.ltpo = max s.ltpo (t + 1) ∧
    s.ltpo ≤ (insert_one rev S s v t sc).1.ltpo ∧
    t < (insert_one rev S s v t sc).1.ltpo ∧
    s.ltpo ≤ (runIns rev S s es).ltpo ∧
    (∀ e ∈ es, e.2.1 < (runIns rev S s es).ltpo) := by
  refine ⟨_add_ltpo rev S s v t sc, ?_, ?_, insert_one_ltpo rev S s v t sc, ?_, ?_,
    runIns_ltpo_mono rev S es s, runIns_ltpo_gt rev S es s⟩
  · simp [add3, _add_ltpo]
  · simp [add2, _add_ltpo]
  · rw [insert_one_ltpo]; omega
  · rw [insert_one_ltpo]; omega

/-- Witness for C5 at a concrete input: after inserting timestamps 4 and
then 2 into an empty capacity-2 container, the counter exceeds both. -/
theorem c5_witness :
    (4 : Nat) < (runIns false 2 (init false 2 [0, 0] [0, 0] [0, 0])
      [(1, 4, 0), (2, 2, 0)]).ltpo :=
  (c5_nexttimestamp_bookkeeping false 2 (init false 2 [0, 0] [0, 0] [0, 0]) 0 0 0
    [(1, 4, 0), (2, 2, 0)]).2.2.2.2.2.2.2 (1, 4, 0) (by decide)

/-! ## Claim C7 -/

lemma findB_iff {α : Type} [DecidableEq α] (l : List α) (x : α) : findB l x = true ↔ x ∈ l := by
  induction l with
  | nil => simp [findB]
  | cons y ys ih =>
    show (if y = x then true else findB ys x) = true ↔ x ∈ y :: ys
    by_cases h : y = x
    · subst h; simp
    · rw [if_neg h, ih]
      constructor
      · exact fun hx => List.mem_cons_of_mem y hx
      · intro hx
        rcases List.mem_cons.1 hx with rfl | hx2
        · exact absurd rfl h
        · exact hx2

/-- Claim C7 as amended: `merge(other)` processes every sample of `other`
in `other`'s iteration order, and performs an `insert` into `self` if and
only if NOT all three of the sample's timestamp, score and value occur
(each independently, possibly in three different slots, over the whole
capacity-sized arrays including unoccupied slots) in `self`'s arrays.  A
fully equal retained triple does imply the sample is skipped, but merely
sharing the timestamp, the score and the value with distinct slots also
causes a skip (see the counterexample). -/
theorem c7_merge_skip_characterisation (rev : Bool) (S : Nat) (s : STS)
    (e : Int × Nat × Int) (es : List (Int × Nat × Int)) :
    (hasTriple s e = true ↔ (e.2.1 ∈ s.timestamps ∧ e.2.2 ∈ s.scores ∧ e.1 ∈ s.values)) ∧
    (mergeStep rev S s e =
      if e.2.1 ∈ s.timestamps ∧ e.2.2 ∈ s.scores ∧ e.1 ∈ s.values then s
      else (insert_one rev S s e.1 e.2.1 e.2.2).1) ∧
    (merge rev S s es = es.foldl (mergeStep rev S) s) ∧
    ((∃ i, i < s.utilized ∧ i < s.timestamps.length ∧ i < s.scores.length ∧
        i < s.values.length ∧ slotSample s i = e) → hasTriple s e = true) := by
  have hiff : hasTriple s e = true ↔
      (e.2.1 ∈ s.timestamps ∧ e.2.2 ∈ s.scores ∧ e.1 ∈ s.values) := by
    simp [hasTriple, Bool.and_eq_true, findB_iff, and_assoc]
  refine ⟨hiff, ?_, rfl, ?_⟩
  · by_cases hc : e.2.1 ∈ s.timestamps ∧ e.2.2 ∈ s.scores ∧ e.1 ∈ s.values
    · rw [if_pos hc]
      unfold mergeStep
      rw [if_pos (hiff.2 hc)]
    · rw [if_neg hc]
      unfold mergeStep
      rw [if_neg (fun hb => hc (hiff.1 hb))]
  · rintro ⟨i, _hu, ht, hs, hv, he⟩
    refine hiff.2 ?_
    have e1 : e.2.1 = s.timestamps.getD i 0 := by rw [← he]; rfl
    have e2 : e.2.2 = s.scores.getD i 0 := by rw [← he]; rfl
    have e3 : e.1 = s.values.getD i 0 := by rw [← he]; rfl
    refine ⟨?_, ?_, ?_⟩
    · rw [e1, List.getD_eq_getElem s.timestamps 0 ht]; exact List.getElem_mem _
    · rw [e2, List.getD_eq_getElem s.scores 0 hs]; exact List.getElem_mem _
    · rw [e3, List.getD_eq_getElem s.values 0 hv]; exact List.getElem_mem _

/-- Witness for C7 at a concrete input: the retained triple `(1, 0, 5)` of
`c7self` is reported present by `has`. -/
theorem c7_witness : hasTriple c7self (1, 0, 5) = true :=
  (c7_merge_skip_characterisation false 3 c7self (1, 0, 5) []).2.2.2
    ⟨0, by decide, by decide, by decide, by decide, by decide⟩

/-! ## Claim C8 -/

/-- Claim C8 as amended: on every FULL container (`size() == capacity`),
`worst()` returns the sample of a retained slot whose score equals the
maximum retained score, ties resolved to the first slot in scan order.  On
a non-full container the index-variant scan also reads unoccupied slots
and can return an unoccupied slot's contents (see the counterexample). -/
theorem c8_worst_on_full_container (S : Nat) (s : STS) (hS : 0 < S) (hu : s.utilized = S)
    (hsl : s.scores.length = S) :
    worstTuple s = slotSample s (worst_index s.scores).1 ∧
    (worst_index s.scores).1 < s.utilized ∧
    getZ s.scores (worst_index s.scores).1 = (worst_index s.scores).2 ∧
    (∀ j, j < S → getZ s.scores j ≤ (worst_index s.scores).2) ∧
    (∀ j, j < (worst_index s.scores).1 → getZ s.scores j < (worst_index s.scores).2) := by
  have hlen : 0 < s.scores.length := by omega
  obtain ⟨h1, h2, h3, h4⟩ := worst_index_spec s.scores hlen
  refine ⟨rfl, by omega, h2, ?_, h4⟩
  intro j hj
  exact h3 j (by omega)

/-- Witness for C8 at a concrete input: on a full capacity-2 container
with retained scores 5 and 7, `worst()`'s slot is a retained slot. -/
theorem c8_witness :
    (worst_index (run false 2 (init false 2 [0, 0] [0, 0] [0, 0])
        [Op.a3 1 0 5, Op.a3 2 1 7]).scores).1 <
      (run false 2 (init false 2 [0, 0] [0, 0] [0, 0]) [Op.a3 1 0 5, Op.a3 2 1 7]).utilized :=
  (c8_worst_on_full_container 2
    (run false 2 (init false 2 [0, 0] [0, 0] [0, 0]) [Op.a3 1 0 5, Op.a3 2 1 7])
    (by decide) (by decide) (by decide)).2.1

/-! ## Claim C1 -/

lemma set_zero_of_length_one {α : Type} (B : List α) (h : B.length = 1) (x : α) :
    B.set 0 x = [x] := by
  cases B with
  | nil => simp at h
  | cons b bs =>
    cases bs with
    | nil => rfl
    | cons c cs => simp at h

lemma memmove_left_set {α : Type} (l : List α) (oi : Nat) (h : oi < l.length) (x : α) :
    (memmove l (oi + 1) (l.length - (oi + 1)) oi).set (l.length - 1) x
      = l.take oi ++ l.drop (oi + 1) ++ [x] := by
  have hmin : min (l.length - (oi + 1)) (l.length - oi) = l.length - (oi + 1) := by omega
  have hdlen : (l.drop (oi + 1)).length = l.length - (oi + 1) := List.length_drop _ _
  have hseg : (l.drop (oi + 1)).take (l.length - (oi + 1)) = l.drop (oi + 1) := by
    rw [← hdlen]; exact List.take_length _
  simp only [memmove, hmin, hseg]
  have harith : oi + (l.length - (oi + 1)) = l.length - 1 := by omega
  rw [hdlen, harith]
  have hA : (l.take oi).length = oi := by rw [List.length_take]; omega
  have hC : (l.drop (l.length - 1)).length = 1 := by rw [List.length_drop]; omega
  rw [List.set_append, List.length_append, hA, hdlen, if_neg (by omega)]
  have hidx : l.length - 1 - (oi + (l.length - (oi + 1))) = 0 := by omega
  rw [hidx, set_zero_of_length_one _ hC]

lemma memmove_rev_set {α : Type} (l : List α) (oi : Nat) (h : oi < l.length) (x : α) :
    (memmove l 0 oi 1).set 0 x = x :: (l.take oi ++ l.drop (oi + 1)) := by
  have hmin : min oi (l.length - 1) = oi := by omega
  simp only [memmove, List.drop_zero, hmin]
  have hA : (l.take oi).length = oi := by rw [List.length_take]; omega
  rw [hA]
  have h1 : (l.take 1).length = 1 := by rw [List.length_take]; omega
  rw [List.set_append, List.length_append, h1, hA, if_pos (by omega)]
  rw [List.set_append, h1, if_pos (by omega), set_zero_of_length_one _ h1]
  rw [Nat.add_comm 1 oi]
  simp

lemma find_offset_index_lt_of_mem (l : List Nat) (x : Nat) (hx : x ∈ l) :
    find_offset_index l x < l.length := by
  induction l with
  | nil => simp at hx
  | cons y ys ih =>
    by_cases h : y = x
    · simp [find_offset_index, h]
    · have hmem : x ∈ ys := by
        rcases List.mem_cons.1 hx with rfl | h2
        · exact absurd rfl h
        · exact h2
      simp only [find_offset_index, if_neg h, List.length_cons]
      have := ih hmem
      omega

/-- Claim C1 as amended: in the index-permutation implementation
(`selective_time_series::_add`), for every full, well-formed container
(order array a permutation of the slot numbers), an add retains the new
sample exactly when its score is ≤ the current worst score (so an
equal-score newer sample displaces the older one); on retention it
overwrites the first worst-scoring slot and moves that slot's logical
position to the newest-time end of the order array, and on rejection only
`last_timestamp_plus_one` changes.  The pointer implementation
(`selective_timeseries::_add`) instead requires a strictly smaller score
(see the counterexample), so the claim is restricted to the index variant. -/
theorem c1_full_add_replaces_first_worst (rev : Bool) (S : Nat) (s : STS) (v : Int)
    (t : Nat) (sc : Int) (hS : 0 < S) (hu : s.utilized = S) (hsl : s.scores.length = S)
    (hol : s.offsets.length = S) (hperm : s.offsets.Perm (List.range S)) :
    ((_add rev S s v t sc).2 = true ↔ sc ≤ (worst_index s.scores).2) ∧
    getZ s.scores (worst_index s.scores).1 = (worst_index s.scores).2 ∧
    (∀ j, j < S → getZ s.scores j ≤ (worst_index s.scores).2) ∧
    (∀ j, j < (worst_index s.scores).1 → getZ s.scores j < (worst_index s.scores).2) ∧
    (sc ≤ (worst_index s.scores).2 →
      (_add rev S s v t sc).1 = { s with
        ltpo := t + 1
        values := s.values.set (worst_index s.scores).1 v
        timestamps := s.timestamps.set (worst_index s.scores).1 t
        scores := s.scores.set (worst_index s.scores).1 sc
        offsets :=
          if rev then
            (worst_index s.scores).1 ::
              (s.offsets.take (find_offset_index s.offsets (worst_index s.scores).1) ++
                s.offsets.drop (find_offset_index s.offsets (worst_index s.scores).1 + 1))
          else
            (s.offsets.take (find_offset_index s.offsets (worst_index s.scores).1) ++
                s.offsets.drop (find_offset_index s.offsets (worst_index s.scores).1 + 1)) ++
              [(worst_index s.scores).1] }) ∧
    ((worst_index s.scores).2 < sc →
      (_add rev S s v t sc).1 = { s with ltpo := t + 1 }) := by
  have hnf : ¬ s.utilized < S := by omega
  have hlen : 0 < s.scores.length := by omega
  obtain ⟨hwi, hget, hmax, hfirst⟩ := worst_index_spec s.scores hlen
  have hwiS : (worst_index s.scores).1 < S := by omega
  have hmem : (worst_index s.scores).1 ∈ s.offsets :=
    (hperm.mem_iff).2 (List.mem_range.2 hwiS)
  have hoi : find_offset_index s.offsets (worst_index s.scores).1 < S := by
    have := find_offset_index_lt_of_mem s.offsets (worst_index s.scores).1 hmem
    omega
  refine ⟨?_, hget, fun j hj => hmax j (by omega), hfirst, ?_, ?_⟩
  · by_cases hsc : sc ≤ (worst_index s.scores).2 <;> simp [_add, hnf, hsc]
  · intro hsc
    have holS : s.offsets.length = S := hol
    cases rev with
    | false =>
      simp only [_add, hnf, if_false, if_neg hnf, hsc, if_pos hsc]
      simp only [Bool.false_eq_true, if_false]
      have hmm := memmove_left_set s.offsets
        (find_offset_index s.offsets (worst_index s.scores).1) (by omega)
        (worst_index s.scores).1
      rw [holS] at hmm
      simp [hmm]
    | true =>
      simp only [_add, hnf, hsc, if_pos hsc, if_neg hnf]
      simp only [if_true]
      have hmm := memmove_rev_set s.offsets
        (find_offset_index s.offsets (worst_index s.scores).1) (by omega)
        (worst_index s.scores).1
      simp [hmm]
  · intro hsc
    have : ¬ sc ≤ (worst_index s.scores).2 := by omega
    simp [_add, hnf, this]

/-- Full capacity-2 index-variant container holding two samples of score 4
(the spec's tie scenario), built by two `add` calls. -/
def c1qstate : STS :=
  run false 2 (init false 2 [0, 0] [0, 0] [0, 0]) [Op.a3 10 0 4, Op.a3 20 1 4]

/-- Witness for C1 at a concrete input: on the full tie-scenario container
the index-variant add with score 4 (equal to the worst score 4) is
retained. -/
theorem c1_witness :
    (_add false 2 c1qstate 30 2 4).2 = true ↔ (4 : Int) ≤ (worst_index c1qstate.scores).2 :=
  (c1_full_add_replaces_first_worst false 2 c1qstate 30 2 4 (by decide) (by decide)
    (by decide) (by decide) (by decide)).1
